import Mathlib

/-!
# Verification of the order-service ingestion and read paths

A shallow embedding of the Go order-service repository: the data model
(`internal/models/order_data.go`), the Postgres storage layer
(`internal/storage/postgres/postgres.go`, squirrel-based variant), the order
processor (`internal/processor/order/order.go`), the Kafka consumer claim
loop (`internal/storage/kafka/consumer.go`), the worker pool
(`lib/workerpool`), and the HTTP read handler
(`internal/http-server/handlers/url/get/get.go` with
`lib/api/response/response.go`).

Conventions of the embedding:
* Go `string` is `String`, Go `int` is `Int`, Go `float64` fields (prices)
  are carried values that the code never computes with, embedded as `Rat`;
  `time.Time` is carried opaquely and embedded as `Int` (unix nanoseconds).
* The JSONB columns `payment_data` / `delivery_data` / `additional_data`
  hold `json.Marshal` images of fixed-shape flat structs which
  `json.Unmarshal` re-materialises exactly; the embedding stores the struct
  values themselves, so marshal/unmarshal is the identity.
* The database is a pair of row lists plus the `order_items` serial
  counter; a SQL transaction is embedded by computing candidate states and
  discarding them on rollback.
* Fallible steps (Begin/Exec/Commit) are driven by an explicit failure
  oracle (`FailSpec`), since the Go errors originate in the external DB.
-/

namespace OrderService

/-! ## Data model: internal/models/order_data.go -/

/-- `models.Delivery`: delivery sub-document of an order. -/
structure Delivery where
  name : String
  phone : String
  zip : String
  city : String
  address : String
  region : String
  email : String
  deriving DecidableEq, Repr

/-- `models.Payment`: payment sub-document of an order. -/
structure Payment where
  transaction : String
  request_id : String
  currency : String
  provider : String
  amount : Int
  payment_dt : Int
  bank : String
  delivery_cost : Int
  goods_total : Int
  custom_fee : Int
  deriving DecidableEq, Repr

/-- `models.AdditionalData`: ancillary metadata embedded in `OrderData`. -/
structure AdditionalData where
  entry : String
  locale : String
  internal_signature : String
  shardkey : String
  sm_id : Int
  oof_shard : String
  deriving DecidableEq, Repr

/-- `models.Item`: one line item of an order. `price`, `sale` and
`total_price` are Go `float64` carriers, embedded as `Rat`. -/
structure Item where
  chrt_id : Int
  track_number : String
  price : Rat
  rid : String
  name : String
  sale : Rat
  size : String
  total_price : Rat
  nm_id : Int
  brand : String
  status : Int
  deriving DecidableEq, Repr

/-- `models.OrderData`: the root order document. `date_created` is a
carried `time.Time`, embedded as `Int`. -/
structure OrderData where
  order_uid : String
  track_number : String
  customer_id : String
  delivery_service : String
  date_created : Int
  items : List Item
  delivery : Delivery
  payment : Payment
  additionalData : AdditionalData
  deriving DecidableEq, Repr

/-! ## Postgres storage: internal/storage/postgres/postgres.go -/

/-- `postgres.OrderDB` / one row of the `orders` table. The three JSONB
columns hold the marshalled sub-documents, embedded as the struct values. -/
structure OrderRow where
  order_uid : String
  track_number : String
  customer_id : String
  delivery_service : String
  date_created : Int
  payment_data : Payment
  delivery_data : Delivery
  additional_data : AdditionalData
  deriving DecidableEq, Repr

/-- `postgres.ItemDB` / one row of the `order_items` table (`id` is the
SERIAL primary key). -/
structure ItemRow where
  id : Nat
  order_uid : String
  chrt_id : Int
  track_number : String
  price : Rat
  rid : String
  name : String
  sale : Rat
  size : String
  total_price : Rat
  nm_id : Int
  brand : String
  status : Int
  deriving DecidableEq, Repr

/-- The durable store: the `orders` and `order_items` tables plus the
next value of the `order_items.id` SERIAL sequence. -/
structure DB where
  orders : List OrderRow
  order_items : List ItemRow
  next_id : Nat
  deriving DecidableEq, Repr

/-- The empty database. -/
def DB.empty : DB := ⟨[], [], 0⟩

/-- `postgres.convertOrder`: build the `orders` row from an order
(marshalling of the three sub-documents is the identity here). -/
def convertOrder (o : OrderData) : OrderRow :=
  { order_uid := o.order_uid
    track_number := o.track_number
    customer_id := o.customer_id
    delivery_service := o.delivery_service
    date_created := o.date_created
    payment_data := o.payment
    delivery_data := o.delivery
    additional_data := o.additionalData }

/-- One step of `postgres.convertItems`: build an `order_items` row from a
`models.Item` (the SERIAL `id` is assigned by the database at insert). -/
def convertItemRow (id : Nat) (orderUID : String) (it : Item) : ItemRow :=
  { id := id
    order_uid := orderUID
    chrt_id := it.chrt_id
    track_number := it.track_number
    price := it.price
    rid := it.rid
    name := it.name
    sale := it.sale
    size := it.size
    total_price := it.total_price
    nm_id := it.nm_id
    brand := it.brand
    status := it.status }

/-- Effect of `INSERT INTO orders ... ON CONFLICT (order_uid) DO NOTHING`
(body of `Storage.saveOrder`): insert the row unless a row with the same
primary key already exists. -/
def insertOrderRow (db : DB) (row : OrderRow) : DB :=
  if db.orders.any (fun r => r.order_uid = row.order_uid) then db
  else { db with orders := db.orders ++ [row] }

/-- Effect of the multi-row `INSERT INTO order_items ...` issued by
`Storage.saveItems`: append one row per item, drawing fresh SERIAL ids.
There is no conflict clause on this insert. -/
def insertItems (db : DB) (orderUID : String) (items : List Item) : DB :=
  { db with
    order_items := db.order_items ++
      (items.enum.map fun p => convertItemRow (db.next_id + p.1) orderUID p.2)
    next_id := db.next_id + items.length }

/-- The error cases `Storage.SaveOrder` can surface, tagged by the failing
sub-step (transaction begin, order insert, items insert, commit). -/
inductive SaveErr where
  | beginErr
  | orderErr
  | itemsErr
  | commitErr
  deriving DecidableEq, Repr

/-- Failure oracle for one `SaveOrder` call: which of the external
database operations fail. -/
structure FailSpec where
  beginFail : Bool
  orderExecFail : Bool
  itemsExecFail : Bool
  commitFail : Bool
  deriving DecidableEq, Repr

/-- The all-succeed oracle. -/
def FailSpec.ok : FailSpec := ⟨false, false, false, false⟩

/-- `Storage.SaveOrder`: begin a transaction, insert the order row
(`ON CONFLICT DO NOTHING`), insert the items (skipped when the item list
is empty, per the early return in `saveItems`), commit. The deferred
rollback discards the transaction's candidate state whenever any step
errors, so the returned database is the original one on every error path.
Returns the result together with the resulting database state. -/
def SaveOrder (f : FailSpec) (o : OrderData) (db : DB) :
    Except SaveErr Unit × DB :=
  if f.beginFail then (.error .beginErr, db)
  else if f.orderExecFail then (.error .orderErr, db)
  else
    let tx1 := insertOrderRow db (convertOrder o)
    if o.items.length ≠ 0 ∧ f.itemsExecFail = true then (.error .itemsErr, db)
    else
      let tx2 := insertItems tx1 o.order_uid o.items
      if f.commitFail then (.error .commitErr, db)
      else (.ok (), tx2)

/-- The committed state of a successful `SaveOrder`: order row inserted
(unless conflicting), then all items appended. -/
def saveApplied (o : OrderData) (db : DB) : DB :=
  insertItems (insertOrderRow db (convertOrder o)) o.order_uid o.items

/-- The error cases of `Storage.GetOrder`: the distinguished
`storage.ErrNoOrder` sentinel, or a query/scan failure. -/
inductive GetErr where
  | noOrder
  | queryErr
  deriving DecidableEq, Repr

/-- `postgres.JoinedRow`: one row of the `orders ⋈ order_items` join. -/
structure JoinedRow where
  order : OrderRow
  item : ItemRow
  deriving DecidableEq, Repr

/-- The `SELECT ... FROM orders o JOIN order_items i ON o.order_uid =
i.order_uid WHERE o.order_uid = $1` issued by `Storage.GetOrder`: every
pair of an `orders` row with the requested uid and an `order_items` row
with the same uid. -/
def joinRows (db : DB) (orderUID : String) : List JoinedRow :=
  (db.orders.filter (fun r => r.order_uid = orderUID)).flatMap fun o =>
    (db.order_items.filter (fun i => i.order_uid = o.order_uid)).map
      fun i => ⟨o, i⟩

/-- `postgres.fillOrderData`: materialise the order header from one joined
row; `Items` starts empty, the sub-documents are unmarshalled (identity
here). -/
def fillOrderData (row : JoinedRow) : OrderData :=
  { order_uid := row.order.order_uid
    track_number := row.order.track_number
    customer_id := row.order.customer_id
    delivery_service := row.order.delivery_service
    date_created := row.order.date_created
    items := []
    delivery := row.order.delivery_data
    payment := row.order.payment_data
    additionalData := row.order.additional_data }

/-- The field-by-field copy of an `order_items` row back into a
`models.Item`, as `postgres.appendItems` performs it. -/
def ItemRow.toItem (row : ItemRow) : Item :=
  { chrt_id := row.chrt_id
    track_number := row.track_number
    price := row.price
    rid := row.rid
    name := row.name
    sale := row.sale
    size := row.size
    total_price := row.total_price
    nm_id := row.nm_id
    brand := row.brand
    status := row.status }

/-- `postgres.appendItems`: append the joined row's item fields to the
order being materialised. -/
def appendItems (row : JoinedRow) (o : OrderData) : OrderData :=
  { o with items := o.items ++ [row.item.toItem] }

/-- `Storage.GetOrder`: run the join; zero rows is the `ErrNoOrder`
sentinel; otherwise the first row fills the header and every row appends
its item. -/
def GetOrder (orderUID : String) (db : DB) : Except GetErr OrderData :=
  match joinRows db orderUID with
  | [] => .error .noOrder
  | first :: _ =>
    .ok ((joinRows db orderUID).foldl (fun acc row => appendItems row acc)
      (fillOrderData first))

/-! ## Order processor: internal/processor/order/order.go -/

/-- `sarama.ConsumerMessage`, restricted to the fields the service reads:
the routing key, the raw JSON value, and the partition/offset coordinates
used for acknowledgement. -/
structure ConsumerMessage where
  key : String
  value : String
  partition : Int
  offset : Int
  deriving DecidableEq, Repr

/-- The errors `Processor.processOrder` can return: JSON unmarshal failure
or a failure propagated from `Storage.SaveOrder`. -/
inductive ProcErr where
  | decodeErr
  | saveErr (e : SaveErr)
  deriving DecidableEq, Repr

/-- `Processor.processOrder`: unmarshal the message value into
`models.OrderData` (the decoder `dec` stands for `json.Unmarshal`; `none`
is a decode error), then `Storage.SaveOrder`; any error is returned and
the database state of the failed save (unchanged, by rollback) is kept. -/
def processOrder (dec : String → Option OrderData) (f : FailSpec)
    (msg : ConsumerMessage) (db : DB) : Except ProcErr Unit × DB :=
  match dec msg.value with
  | none => (.error .decodeErr, db)
  | some orderData =>
    match SaveOrder f orderData db with
    | (.ok _, db') => (.ok (), db')
    | (.error e, db') => (.error (.saveErr e), db')

/-- The body of the per-message task spawned by `Processor.processBatch`:
run `pool.Handle` (which invokes `processOrder`); on error, log and
publish nothing; on success, publish the original message instance to the
commit channel. The first component is the message published to
`commitChan`, if any. -/
def handleAndCommit (dec : String → Option OrderData) (f : FailSpec)
    (msg : ConsumerMessage) (db : DB) : Option ConsumerMessage × DB :=
  match processOrder dec f msg db with
  | (.ok _, db') => (some msg, db')
  | (.error _, db') => (none, db')

/-- `Processor.processBatch`: every message of the batch is handed to the
pool and, on success, published for commit. The pool runs handlers
concurrently; this embedding fixes one sequential interleaving of the
per-message tasks. Returns the messages published to `commitChan` and the
final database state. -/
def processBatch (dec : String → Option OrderData)
    (fs : ConsumerMessage → FailSpec) :
    List ConsumerMessage → DB → List ConsumerMessage × DB
  | [], db => ([], db)
  | m :: ms, db =>
    let r := handleAndCommit dec (fs m) m db
    let rest := processBatch dec fs ms r.2
    (r.1.toList ++ rest.1, rest.2)

/-! ## Kafka consumer claim loop: internal/storage/kafka/consumer.go -/

/-- `kafka.batchsize`: number of acknowledged messages per offset
commit. -/
def batchsize : Nat := 100

/-- The per-claim session state of `consumerHandler.ConsumeClaim`:
the `processed` counter, the highest acknowledged offset marked via
`session.MarkMessage` (offsets are modelled by the acknowledged message's
offset), and the last committed watermark. `none` means no offset has been
marked (resp. committed) yet. -/
structure SessionState where
  processed : Nat
  marked : Option Int
  committed : Option Int
  deriving DecidableEq, Repr

/-- The session state at entry of `ConsumeClaim`. -/
def SessionState.init : SessionState := ⟨0, none, none⟩

/-- `session.MarkMessage`: the marked watermark only advances
(sarama keeps the maximum marked offset per partition). -/
def markOffset (marked : Option Int) (off : Int) : Option Int :=
  match marked with
  | none => some off
  | some m => some (max m off)

/-- The events multiplexed by the `select` of `ConsumeClaim`: a new broker
message on `claim.Messages()` (forwarded to `orderChan`), an acknowledged
message on `commitChan`, and session-context cancellation. -/
inductive ClaimEvent where
  | message (m : ConsumerMessage)
  | ack (m : ConsumerMessage)
  | cancel
  deriving DecidableEq, Repr

/-- One iteration of the `ConsumeClaim` loop. A broker message is only
forwarded and changes none of the commit bookkeeping; an acknowledgement
marks the offset, increments `processed`, and commits (resetting the
counter) when `processed` reaches `batchsize`; cancellation commits the
marked watermark. -/
def claimStep (s : SessionState) (e : ClaimEvent) : SessionState :=
  match e with
  | .message _ => s
  | .ack m =>
    let s' := { s with marked := markOffset s.marked m.offset
                       processed := s.processed + 1 }
    if s'.processed ≥ batchsize then
      { s' with committed := s'.marked, processed := 0 }
    else s'
  | .cancel => { s with committed := s.marked }

/-- Run `ConsumeClaim` on a trace of events; the loop returns at the first
cancellation (after its final commit). -/
def runClaim : SessionState → List ClaimEvent → SessionState
  | s, [] => s
  | s, .cancel :: _ => claimStep s .cancel
  | s, e :: es => runClaim (claimStep s e) es

/-- The maximum of two optional offsets (`none` = no offset). -/
def optMax : Option Int → Option Int → Option Int
  | none, b => b
  | some a, none => some a
  | some a, some b => some (max a b)

/-- `a ≤ b` on optional offsets: `none` is below everything, and a present
offset needs a present bound. -/
def offLe : Option Int → Option Int → Prop
  | none, _ => True
  | some _, none => False
  | some a, some b => a ≤ b

/-- The maximum offset acknowledged in a trace (over `ack` events). -/
def maxAckOffset : List ClaimEvent → Option Int
  | [] => none
  | .ack m :: es => optMax (some m.offset) (maxAckOffset es)
  | _ :: es => maxAckOffset es

/-! ## Worker pool: lib/workerpool -/

/-- `workerpool.MaxWorkersCount`: the pool capacity `N`. -/
def MaxWorkersCount : Nat := 10

/-- Observable state of the pool's token channel: tokens available in the
channel and handlers currently holding a token (`Handle` between its
receive and its deferred send). -/
structure PoolState where
  available : Nat
  inFlight : Nat
  deriving DecidableEq, Repr

/-- The state after `Pool.Create`: all `MaxWorkersCount` tokens in the
channel, no handler in flight. -/
def PoolState.afterCreate : PoolState := ⟨MaxWorkersCount, 0⟩

/-- `w := <-p.pool` at the top of `Pool.Handle`: blocks unless a token is
available, then moves it into the handler. -/
def acquireToken (s : PoolState) : PoolState :=
  ⟨s.available - 1, s.inFlight + 1⟩

/-- The deferred `p.pool <- w` of `Pool.Handle`: returns the token on
every exit path. -/
def releaseToken (s : PoolState) : PoolState :=
  ⟨s.available + 1, s.inFlight - 1⟩

/-- Interleaving semantics of the token channel: at any time some
`Handle` call may acquire a token (if one is available) or a handler may
finish and release its token. -/
inductive PoolTransition : PoolState → PoolState → Prop where
  | acquire (s : PoolState) : 0 < s.available → PoolTransition s (acquireToken s)
  | release (s : PoolState) : 0 < s.inFlight → PoolTransition s (releaseToken s)

/-- States reachable from the freshly created pool. -/
inductive PoolReachable : PoolState → Prop where
  | init : PoolReachable PoolState.afterCreate
  | step {s t : PoolState} : PoolReachable s → PoolTransition s t →
      PoolReachable t

/-- `Pool.Handle` as seen by one caller executing alone: acquire a token,
run the handler, release the token via `defer` regardless of the
handler's result. Returns the handler's error and the pool state after
the call. -/
def Handle {Ctx Data : Type} (handler : Ctx → Data → Except ProcErr Unit)
    (ctx : Ctx) (data : Data) (s : PoolState) :
    Except ProcErr Unit × PoolState :=
  (handler ctx data, releaseToken (acquireToken s))

/-! ## HTTP read path: lib/api/response/response.go and
internal/http-server/handlers/url/get/get.go -/

/-- `response.StatusOK`. -/
def StatusOK : String := "OK"

/-- `response.StatusError`. -/
def StatusError : String := "Error"

/-- `response.Response`: the uniform JSON envelope (`error` is empty on
success and omitted by `omitempty`). -/
structure Response where
  status : String
  error : String
  deriving DecidableEq, Repr

/-- `response.OK()`. -/
def Response.OK : Response := ⟨StatusOK, ""⟩

/-- `response.Error(msg)`. -/
def Response.mkError (msg : String) : Response := ⟨StatusError, msg⟩

/-- Outcome of one `GetOrder` lookup against the cache or the store, as
the read handler distinguishes them: a found order, the `ErrNoOrder`
sentinel, the `ErrEmptyOrder` sentinel, or any other failure (for which
the Go call returns a nil order pointer). -/
inductive LookupRes where
  | found (o : OrderData)
  | noOrder
  | emptyOrder
  | failure
  deriving DecidableEq, Repr

/-- Everything `get.New`'s handler does with one request: the HTTP status
written (render.JSON leaves the default 200), the envelope, the `order`
field of `get.Response` (present only on success), and the asynchronous
`cache.SaveOrder` goroutine it schedules, recorded as the context value
and order pointer passed to it (`none` = nil pointer). -/
structure HandlerResult (Ctx : Type) where
  httpStatus : Nat
  envelope : Response
  order : Option OrderData
  cacheWrite : Option (Ctx × Option OrderData)
  deriving DecidableEq, Repr

/-- The handler returned by `get.New`, as a function of the `order_uid`
path parameter and the outcomes of the cache and store lookups. `bgCtx`
is the `ctx` argument of `get.New` (the application context captured by
the closure); `_reqCtx` is the request's context, which the handler never
passes to a lookup or to the cache-fill goroutine. On a cache miss
(`ErrNoOrder`), the store is consulted; unless the store also reports
`ErrNoOrder`, the cache-fill goroutine is scheduled with `bgCtx` and the
store's order pointer, and the handler then dispatches on the store's
error as the cache-hit path does. -/
def getHandler {Ctx : Type} (bgCtx _reqCtx : Ctx) (orderUID : String)
    (cacheRes storeRes : LookupRes) : HandlerResult Ctx :=
  if orderUID = "" then
    ⟨200, Response.mkError "order uid is empty", none, none⟩
  else
    match cacheRes with
    | .noOrder =>
      match storeRes with
      | .noOrder => ⟨200, Response.mkError "order not found", none, none⟩
      | .found o => ⟨200, Response.OK, some o, some (bgCtx, some o)⟩
      | .emptyOrder =>
        ⟨200, Response.mkError "empty order", none, some (bgCtx, none)⟩
      | .failure =>
        ⟨200, Response.mkError "failed to get order", none, some (bgCtx, none)⟩
    | .found o => ⟨200, Response.OK, some o, none⟩
    | .emptyOrder => ⟨200, Response.mkError "empty order", none, none⟩
    | .failure => ⟨200, Response.mkError "failed to get order", none, none⟩

end OrderService

namespace OrderService

/-! ## Concrete test data -/

/-- The line item of the spec's end-to-end scenario 1. -/
def sampleItem : Item :=
  { chrt_id := 9934930, track_number := "WBILMTESTTRACK", price := 453,
    rid := "ab4219087a764ae0btest", name := "Mascaras", sale := 30,
    size := "0", total_price := 317, nm_id := 2389212,
    brand := "Vivienne Sabo", status := 202 }

/-- A concrete order with a single item (spec end-to-end scenario 1). -/
def sampleOrder : OrderData :=
  { order_uid := "b563feb7b2b84b6test", track_number := "WBILMTESTTRACK",
    customer_id := "test", delivery_service := "meest", date_created := 0,
    items := [sampleItem],
    delivery := ⟨"Test Testov", "+9720000000", "2639809", "Kiryat Mozkin",
      "Ploshad Mira 15", "Kraiot", "test@gmail.com"⟩,
    payment := ⟨"b563feb7b2b84b6test", "", "USD", "wbpay", 1817,
      1637907727, "alpha", 1500, 317, 0⟩,
    additionalData := ⟨"WBIL", "en", "", "9", 99, "1"⟩ }

/-- A concrete order whose item list is empty. -/
def emptyItemsOrder : OrderData :=
  { sampleOrder with order_uid := "noitemsorder", items := [] }

/-- Go's `json.Unmarshal` of the payload `"{}"` into `models.OrderData`:
every field keeps its zero value (empty strings, zero numbers, nil item
slice, zero time). -/
def zeroOrder : OrderData :=
  { order_uid := "", track_number := "", customer_id := "",
    delivery_service := "", date_created := 0, items := [],
    delivery := ⟨"", "", "", "", "", "", ""⟩,
    payment := ⟨"", "", "", "", 0, 0, "", 0, 0, 0⟩,
    additionalData := ⟨"", "", "", "", 0, ""⟩ }

/-- A concrete decoder oracle recognising exactly the payload `"{}"`,
with the value Go's decoder produces for it. -/
def decEmptyObject : String → Option OrderData :=
  fun s => if s = "{}" then some zeroOrder else none

/-! ## Storage lemmas -/

/-- A fault-free `SaveOrder` succeeds and commits the candidate state. -/
theorem saveOrder_ok_eq (o : OrderData) (db : DB) :
    SaveOrder FailSpec.ok o db = (.ok (), saveApplied o db) := by
  simp [SaveOrder, FailSpec.ok, saveApplied]

theorem insertItems_orders (db : DB) (u : String) (its : List Item) :
    (insertItems db u its).orders = db.orders := rfl

/-- After `insertOrderRow` a row with the inserted primary key exists. -/
theorem insertOrderRow_any_self (db : DB) (row : OrderRow) :
    ((insertOrderRow db row).orders.any
      (fun r => decide (r.order_uid = row.order_uid))) = true := by
  unfold insertOrderRow
  split
  · next h => exact h
  · simp

/-- `ON CONFLICT (order_uid) DO NOTHING`: inserting an already-present
primary key leaves the table unchanged. -/
theorem insertOrderRow_absorb (db : DB) (row : OrderRow)
    (h : (db.orders.any (fun r => decide (r.order_uid = row.order_uid))) = true) :
    insertOrderRow db row = db := by
  unfold insertOrderRow
  rw [if_pos h]

/-- After a committed save, the order's primary key is present. -/
theorem saveApplied_orders_any (o : OrderData) (db : DB) :
    ((saveApplied o db).orders.any
      (fun r => decide (r.order_uid = o.order_uid))) = true := by
  show ((insertOrderRow db (convertOrder o)).orders.any
      (fun r => decide (r.order_uid = (convertOrder o).order_uid))) = true
  exact insertOrderRow_any_self db (convertOrder o)

/-- The loop of `GetOrder` over the joined rows appends exactly the
items of those rows, in order, and touches no other field. -/
theorem foldl_appendItems (rows : List JoinedRow) (a : OrderData) :
    rows.foldl (fun acc row => appendItems row acc) a =
      { a with items := a.items ++ rows.map (fun r => r.item.toItem) } := by
  induction rows generalizing a with
  | nil => simp
  | cons r rs ih =>
    rw [List.foldl_cons, ih]
    simp [appendItems, List.append_assoc]

/-- `GetOrder` on a non-empty join: header from the first row, items
appended from every row. -/
theorem getOrder_eq_of_join (db : DB) (uid : String) (first : JoinedRow)
    (rest : List JoinedRow) (h : joinRows db uid = first :: rest) :
    GetOrder uid db =
      .ok ((first :: rest).foldl (fun acc row => appendItems row acc)
        (fillOrderData first)) := by
  unfold GetOrder
  rw [h]

end OrderService

namespace OrderService

/-! ## Claim C1: idempotence of re-ingesting the same payload -/

/-- C1 counterexample: ingesting the same one-item payload twice is not a
no-op on the durable store. The `orders` table does keep exactly one row,
but the items insert has no conflict clause, so `order_items` ends with
two copies of the single item and the store differs from the single-ingest
state. -/
theorem saveOrder_reingest_duplicates_items_cex :
    ((SaveOrder FailSpec.ok sampleOrder
        ((SaveOrder FailSpec.ok sampleOrder DB.empty).2)).2).order_items.length = 2
    ∧ ((SaveOrder FailSpec.ok sampleOrder DB.empty).2).order_items.length = 1
    ∧ ((SaveOrder FailSpec.ok sampleOrder
        ((SaveOrder FailSpec.ok sampleOrder DB.empty).2)).2).orders.countP
        (fun r => r.order_uid = sampleOrder.order_uid) = 1
    ∧ (SaveOrder FailSpec.ok sampleOrder
        ((SaveOrder FailSpec.ok sampleOrder DB.empty).2)).2 ≠
      (SaveOrder FailSpec.ok sampleOrder DB.empty).2 := by
  decide

/-- C1 (amended): a second `SaveOrder` with the same payload leaves the
`orders` table unchanged — when the `order_uid` was fresh, exactly one row
for it exists — but re-executes the items insert, appending a fresh copy
of every item to `order_items`. -/
theorem saveOrder_reingest_keeps_order_row_reappends_items :
    ∀ (o : OrderData) (db : DB),
      ((SaveOrder FailSpec.ok o ((SaveOrder FailSpec.ok o db).2)).2).orders =
        ((SaveOrder FailSpec.ok o db).2).orders
      ∧ ((SaveOrder FailSpec.ok o ((SaveOrder FailSpec.ok o db).2)).2).order_items =
        ((SaveOrder FailSpec.ok o db).2).order_items ++
          (o.items.enum.map fun p =>
            convertItemRow (((SaveOrder FailSpec.ok o db).2).next_id + p.1)
              o.order_uid p.2)
      ∧ (db.orders.countP (fun r => r.order_uid = o.order_uid) = 0 →
          ((SaveOrder FailSpec.ok o ((SaveOrder FailSpec.ok o db).2)).2).orders.countP
            (fun r => r.order_uid = o.order_uid) = 1) := by
  intro o db
  rw [saveOrder_ok_eq, saveOrder_ok_eq]
  have habs : insertOrderRow (saveApplied o db) (convertOrder o) =
      saveApplied o db :=
    insertOrderRow_absorb _ _ (saveApplied_orders_any o db)
  have h2 : saveApplied o (saveApplied o db) =
      insertItems (saveApplied o db) o.order_uid o.items := by
    show insertItems (insertOrderRow (saveApplied o db) (convertOrder o))
      o.order_uid o.items = insertItems (saveApplied o db) o.order_uid o.items
    rw [habs]
  refine ⟨?_, ?_, ?_⟩
  · rw [h2]; rfl
  · rw [h2]; rfl
  · intro hzero
    rw [h2, insertItems_orders]
    show ((insertOrderRow db (convertOrder o)).orders.countP
      (fun r => decide (r.order_uid = o.order_uid))) = 1
    have hany : (db.orders.any
        (fun r => decide (r.order_uid = (convertOrder o).order_uid))) = false := by
      rw [List.any_eq_false]
      intro r hr
      simp only [decide_eq_true_eq]
      have := List.countP_eq_zero.mp hzero r hr
      simpa using this
    unfold insertOrderRow
    rw [if_neg (by simp [hany])]
    simp [List.countP_append, List.countP_eq_zero.mpr, hzero, convertOrder]

/-- C1 witness: on the fresh empty store, after ingesting the sample
payload twice its `order_uid` occurs exactly once in `orders`. -/
theorem saveOrder_reingest_witness :
    ((SaveOrder FailSpec.ok sampleOrder
        ((SaveOrder FailSpec.ok sampleOrder DB.empty).2)).2).orders.countP
      (fun r => r.order_uid = sampleOrder.order_uid) = 1 :=
  (saveOrder_reingest_keeps_order_row_reappends_items sampleOrder DB.empty).2.2
    (by decide)

/-! ## Claim C2: atomicity of SaveOrder -/

/-- Which sub-step of `SaveOrder` fails first under oracle `f`, for an
order with `itemsCount` items (the items insert is skipped when the item
list is empty). -/
def failedStep (f : FailSpec) (itemsCount : Nat) : Option SaveErr :=
  if f.beginFail then some .beginErr
  else if f.orderExecFail then some .orderErr
  else if itemsCount ≠ 0 ∧ f.itemsExecFail = true then some .itemsErr
  else if f.commitFail then some .commitErr
  else none

/-- C2: `SaveOrder` is atomic. On success the committed state holds the
order row and all its items; on any sub-step failure the transaction is
rolled back, the store is unchanged, and the error identifying the first
failing sub-step is returned. -/
theorem saveOrder_atomic : ∀ (f : FailSpec) (o : OrderData) (db : DB),
    ((SaveOrder f o db).1 = .ok () → (SaveOrder f o db).2 = saveApplied o db)
    ∧ (∀ e, (SaveOrder f o db).1 = .error e → (SaveOrder f o db).2 = db)
    ∧ ((SaveOrder f o db).1 =
        match failedStep f o.items.length with
        | some e => .error e
        | none => .ok ()) := by
  intro f o db
  rcases f with ⟨b, oe, ie, ce⟩
  by_cases hi : o.items.length = 0 <;>
    cases b <;> cases oe <;> cases ie <;> cases ce <;>
    simp [SaveOrder, failedStep, saveApplied, hi]

/-- C2 witness: a failing transaction begin leaves the empty store
untouched. -/
theorem saveOrder_atomic_witness :
    (SaveOrder ⟨true, false, false, false⟩ sampleOrder DB.empty).2 = DB.empty :=
  (saveOrder_atomic ⟨true, false, false, false⟩ sampleOrder DB.empty).2.1
    .beginErr rfl

/-! ## Claim C3: lossless round-trip through the store -/

/-- C3 counterexample: an order with an empty item list is persisted by
`SaveOrder`, but `GetOrder` on its `order_uid` answers the no-order
sentinel instead of returning the order — the inner join yields zero rows,
so the round-trip is not lossless for empty-item orders. -/
theorem save_empty_items_getOrder_no_order_cex :
    GetOrder emptyItemsOrder.order_uid
      ((SaveOrder FailSpec.ok emptyItemsOrder DB.empty).2) = .error .noOrder := rfl

/-- C3 (amended): for an order with a non-empty item list whose
`order_uid` is fresh in the store, `GetOrder` after `SaveOrder` returns
exactly the ingested order: header, sub-documents and the exact item list. -/
theorem save_getOrder_roundtrip_nonempty :
    ∀ (o : OrderData) (db : DB),
      o.items ≠ [] →
      (∀ r ∈ db.orders, r.order_uid ≠ o.order_uid) →
      (∀ i ∈ db.order_items, i.order_uid ≠ o.order_uid) →
      GetOrder o.order_uid ((SaveOrder FailSpec.ok o db).2) = .ok o := by
  intro o db hne ho hi
  rw [saveOrder_ok_eq]
  show GetOrder o.order_uid (saveApplied o db) = .ok o
  have hins : insertOrderRow db (convertOrder o) =
      { db with orders := db.orders ++ [convertOrder o] } := by
    have hany : (db.orders.any
        (fun r => decide (r.order_uid = (convertOrder o).order_uid))) = false := by
      rw [List.any_eq_false]
      intro r hr
      simpa [convertOrder] using ho r hr
    simp [insertOrderRow, hany]
  have hdb : saveApplied o db =
      ⟨db.orders ++ [convertOrder o],
       db.order_items ++ (o.items.enum.map fun p =>
         convertItemRow (db.next_id + p.1) o.order_uid p.2),
       db.next_id + o.items.length⟩ := by
    unfold saveApplied
    rw [hins]
    rfl
  have hjoin : joinRows (saveApplied o db) o.order_uid =
      (o.items.enum.map fun p =>
        convertItemRow (db.next_id + p.1) o.order_uid p.2).map
        (fun i => (⟨convertOrder o, i⟩ : JoinedRow)) := by
    rw [hdb]
    unfold joinRows
    have hf1 : ((db.orders ++ [convertOrder o]).filter
        (fun r => decide (r.order_uid = o.order_uid))) = [convertOrder o] := by
      rw [List.filter_append]
      have h0 : (db.orders.filter
          (fun r => decide (r.order_uid = o.order_uid))) = [] := by
        rw [List.filter_eq_nil_iff]
        intro r hr
        simpa using ho r hr
      simp [h0, convertOrder]
    have hf2 : ((db.order_items ++ (o.items.enum.map fun p =>
          convertItemRow (db.next_id + p.1) o.order_uid p.2)).filter
        (fun i => decide (i.order_uid = (convertOrder o).order_uid))) =
        (o.items.enum.map fun p =>
          convertItemRow (db.next_id + p.1) o.order_uid p.2) := by
      rw [List.filter_append]
      have h0 : (db.order_items.filter
          (fun i => decide (i.order_uid = (convertOrder o).order_uid))) = [] := by
        rw [List.filter_eq_nil_iff]
        intro r hr
        simpa [convertOrder] using hi r hr
      have h1 : ((o.items.enum.map fun p =>
            convertItemRow (db.next_id + p.1) o.order_uid p.2).filter
          (fun i => decide (i.order_uid = (convertOrder o).order_uid))) =
          (o.items.enum.map fun p =>
            convertItemRow (db.next_id + p.1) o.order_uid p.2) := by
        rw [List.filter_eq_self]
        intro r hr
        rcases List.mem_map.mp hr with ⟨p, hp, hpe⟩
        subst hpe
        simp [convertItemRow, convertOrder]
      simp [h0, h1]
    simp only [hf1]
    simp only [List.flatMap_cons, List.flatMap_nil, List.append_nil]
    rw [hf2]
  have hLne : joinRows (saveApplied o db) o.order_uid ≠ [] := by
    rw [hjoin]
    simp [List.map_eq_nil_iff, List.enum_eq_nil, hne]
  obtain ⟨first, rest, hcons⟩ := List.exists_cons_of_ne_nil hLne
  have hfirst : first.order = convertOrder o := by
    have hmem : first ∈ joinRows (saveApplied o db) o.order_uid := by
      rw [hcons]
      exact List.mem_cons_self _ _
    rw [hjoin] at hmem
    rcases List.mem_map.mp hmem with ⟨i, _, hEq⟩
    rw [← hEq]
  rw [getOrder_eq_of_join _ _ _ _ hcons, foldl_appendItems]
  have hmap : (first :: rest).map (fun r => r.item.toItem) = o.items := by
    rw [← hcons, hjoin, List.map_map, List.map_map]
    refine (List.map_congr_left ?_).trans (List.enum_map_snd o.items)
    intro p _
    rfl
  rw [hmap]
  have hfill : fillOrderData first = { o with items := [] } := by
    rw [fillOrderData, hfirst]
    rfl
  rw [hfill]
  simp

/-- C3 witness: saving the one-item sample order into the empty store and
reading it back returns exactly the sample order. -/
theorem save_getOrder_roundtrip_witness :
    GetOrder sampleOrder.order_uid
      ((SaveOrder FailSpec.ok sampleOrder DB.empty).2) = .ok sampleOrder :=
  save_getOrder_roundtrip_nonempty sampleOrder DB.empty (by decide)
    (by decide) (by decide)

end OrderService

namespace OrderService

/-! ## Claim C4: commit channel publication iff handling succeeded -/

/-- C4: the per-message task of `processBatch` publishes to the commit
channel exactly the messages whose handler returned no error; it never
publishes anything but the original message instance; a JSON decode
failure or a `SaveOrder` error prevents publication; and a whole batch
publishes a sub-list of the consumed batch. -/
theorem processor_commit_iff_success :
    ∀ (dec : String → Option OrderData) (f : FailSpec) (m : ConsumerMessage)
      (db : DB),
      ((handleAndCommit dec f m db).1 = some m ↔
        (processOrder dec f m db).1 = .ok ())
      ∧ ((handleAndCommit dec f m db).1 = none ∨
          (handleAndCommit dec f m db).1 = some m)
      ∧ (dec m.value = none → (handleAndCommit dec f m db).1 = none)
      ∧ (∀ o e, dec m.value = some o → (SaveOrder f o db).1 = .error e →
          (handleAndCommit dec f m db).1 = none)
      ∧ (∀ (fs : ConsumerMessage → FailSpec) (ms : List ConsumerMessage)
          (d : DB), (processBatch dec fs ms d).1.Sublist ms) := by
  intro dec f m db
  have hpub : ∀ (f' : FailSpec) (m' : ConsumerMessage) (db' : DB),
      (handleAndCommit dec f' m' db').1 = none ∨
      (handleAndCommit dec f' m' db').1 = some m' := by
    intro f' m' db'
    unfold handleAndCommit
    rcases hp : processOrder dec f' m' db' with ⟨res, db''⟩
    cases res with
    | ok u => right; rfl
    | error e => left; rfl
  refine ⟨?_, hpub f m db, ?_, ?_, ?_⟩
  · unfold handleAndCommit
    rcases hp : processOrder dec f m db with ⟨res, db''⟩
    cases res with
    | ok u => simp
    | error e => simp
  · intro h
    unfold handleAndCommit processOrder
    rw [h]
  · intro o e h1 h2
    unfold handleAndCommit processOrder
    rw [h1]
    rcases hs : SaveOrder f o db with ⟨sres, sdb⟩
    rw [hs] at h2
    simp at h2
    subst h2
    simp [hs]
  · intro fs ms
    induction ms with
    | nil => intro d; exact List.Sublist.refl []
    | cons x xs ih =>
      intro d
      show ((handleAndCommit dec (fs x) x d).1.toList ++
        (processBatch dec fs xs (handleAndCommit dec (fs x) x d).2).1).Sublist
        (x :: xs)
      rcases hpub (fs x) x d with h | h
      · rw [h]
        exact (ih _).cons x
      · rw [h]
        exact (ih _).cons₂ x

/-- C4 witness: a payload the decoder rejects is not published for
commit. -/
theorem processor_commit_iff_success_witness :
    (handleAndCommit decEmptyObject FailSpec.ok
      ⟨"", "not json", 0, 0⟩ DB.empty).1 = none :=
  (processor_commit_iff_success decEmptyObject FailSpec.ok
    ⟨"", "not json", 0, 0⟩ DB.empty).2.2.1 (by decide)

/-! ## Claim C5: consumer commit watermark -/

theorem optMax_none_right (a : Option Int) : optMax a none = a := by
  cases a <;> rfl

theorem offLe_optMax_right (a b : Option Int) : offLe b (optMax a b) := by
  cases a <;> cases b <;> simp [offLe, optMax]

theorem optMax_left_comm (a b c : Option Int) :
    optMax (optMax a b) c = optMax b (optMax a c) := by
  cases a <;> cases b <;> cases c <;>
    simp [optMax, max_comm, max_assoc, max_left_comm]

/-- `MarkMessage` advances the marked watermark to the maximum. -/
theorem markOffset_eq (m : Option Int) (off : Int) :
    markOffset m off = optMax (some off) m := by
  cases m with
  | none => rfl
  | some x => simp [markOffset, optMax, max_comm]

/-- Invariant of the claim loop: the committed watermark never exceeds the
maximum acknowledged offset of the trace joined with the initially marked
watermark. -/
theorem runClaim_committed_le (es : List ClaimEvent) :
    ∀ (s : SessionState),
      offLe s.committed (optMax (maxAckOffset es) s.marked) →
      offLe (runClaim s es).committed (optMax (maxAckOffset es) s.marked) := by
  induction es with
  | nil => intro s h; exact h
  | cons e tl ih =>
    cases e with
    | message m => intro s h; exact ih s h
    | cancel =>
      intro s h
      exact offLe_optMax_right _ _
    | ack m =>
      intro s h
      have hAC : optMax (optMax (some m.offset) (maxAckOffset tl)) s.marked =
          optMax (maxAckOffset tl) (optMax (some m.offset) s.marked) :=
        optMax_left_comm _ _ _
      show offLe (runClaim (claimStep s (.ack m)) tl).committed
        (optMax (optMax (some m.offset) (maxAckOffset tl)) s.marked)
      by_cases hb : s.processed + 1 ≥ batchsize
      · have hstep : claimStep s (.ack m) =
            ⟨0, markOffset s.marked m.offset, markOffset s.marked m.offset⟩ := by
          simp [claimStep, hb]
        rw [hstep, hAC, ← markOffset_eq]
        apply ih
        exact offLe_optMax_right _ _
      · have hstep : claimStep s (.ack m) =
            ⟨s.processed + 1, markOffset s.marked m.offset, s.committed⟩ := by
          simp [claimStep, hb]
        rw [hstep, hAC, ← markOffset_eq]
        apply ih
        show offLe s.committed
          (optMax (maxAckOffset tl) (markOffset s.marked m.offset))
        rw [markOffset_eq, ← optMax_left_comm]
        exact h

/-- C5: starting from a fresh session, the committed offset never exceeds
the maximum acknowledged offset of the trace; broker messages mark
nothing; an acknowledgement marks its offset and, once the processed
counter reaches `batchsize`, commits the marked watermark and resets the
counter; and cancellation commits the marked watermark before the loop
returns. -/
theorem consumer_commit_watermark :
    ∀ (es : List ClaimEvent),
      offLe (runClaim SessionState.init es).committed (maxAckOffset es)
      ∧ ∀ (s : SessionState) (m : ConsumerMessage),
          claimStep s (.message m) = s
          ∧ claimStep s .cancel = { s with committed := s.marked }
          ∧ (∀ es', runClaim s (.cancel :: es') =
              { s with committed := s.marked })
          ∧ (s.processed + 1 ≥ batchsize →
              claimStep s (.ack m) =
                ⟨0, markOffset s.marked m.offset, markOffset s.marked m.offset⟩)
          ∧ (s.processed + 1 < batchsize →
              claimStep s (.ack m) =
                ⟨s.processed + 1, markOffset s.marked m.offset, s.committed⟩) := by
  intro es
  constructor
  · have h := runClaim_committed_le es SessionState.init trivial
    simpa [SessionState.init, optMax_none_right] using h
  · intro s m
    refine ⟨rfl, rfl, fun es' => rfl, ?_, ?_⟩
    · intro hb
      simp [claimStep, hb]
    · intro hb
      simp [claimStep, hb]

/-- C5 witness: acknowledging offset 5 and cancelling commits nothing
above 5; a session at 99 processed messages commits on the next
acknowledgement and resets its counter. -/
theorem consumer_commit_watermark_witness :
    offLe (runClaim SessionState.init
        [ClaimEvent.ack ⟨"k", "v", 0, 5⟩, ClaimEvent.cancel]).committed
      (maxAckOffset [ClaimEvent.ack ⟨"k", "v", 0, 5⟩, ClaimEvent.cancel])
    ∧ claimStep ⟨99, some 3, none⟩ (ClaimEvent.ack ⟨"k", "v", 0, 7⟩) =
      ⟨0, some 7, some 7⟩ := by
  refine ⟨(consumer_commit_watermark _).1, ?_⟩
  have h := ((consumer_commit_watermark []).2 ⟨99, some 3, none⟩
    ⟨"k", "v", 0, 7⟩).2.2.2.1 (by decide)
  rw [h]
  decide

end OrderService

namespace OrderService

/-! ## Claim C6: GetOrder's no-order sentinel -/

/-- C6: `GetOrder` answers the no-order sentinel exactly when the
`orders ⋈ order_items` join for the requested uid is empty: an absent
`order_uid` yields no-order, an order present with zero items also yields
no-order, and a non-empty join yields the order with one item per joined
row. -/
theorem getOrder_no_order_iff_empty_join :
    ∀ (db : DB) (uid : String),
      (GetOrder uid db = .error .noOrder ↔ joinRows db uid = [])
      ∧ ((∀ r ∈ db.orders, r.order_uid ≠ uid) →
          GetOrder uid db = .error .noOrder)
      ∧ (db.order_items.filter (fun i => i.order_uid = uid) = [] →
          GetOrder uid db = .error .noOrder)
      ∧ (joinRows db uid ≠ [] →
          ∃ o, GetOrder uid db = .ok o
            ∧ o.items = (joinRows db uid).map (fun r => r.item.toItem)) := by
  intro db uid
  have hiff : GetOrder uid db = .error .noOrder ↔ joinRows db uid = [] := by
    constructor
    · intro h
      cases hj : joinRows db uid with
      | nil => rfl
      | cons first rest =>
        rw [getOrder_eq_of_join db uid first rest hj] at h
        exact absurd h (by simp)
    · intro h
      unfold GetOrder
      rw [h]
  refine ⟨hiff, ?_, ?_, ?_⟩
  · intro h
    apply hiff.mpr
    unfold joinRows
    have h0 : (db.orders.filter (fun r => decide (r.order_uid = uid))) = [] := by
      rw [List.filter_eq_nil_iff]
      intro r hr
      simpa using h r hr
    rw [h0]
    rfl
  · intro h
    apply hiff.mpr
    unfold joinRows
    rw [List.flatMap_eq_nil_iff]
    intro r hr
    have hru : r.order_uid = uid := by
      have := (List.mem_filter.mp hr).2
      simpa using this
    rw [List.map_eq_nil_iff, List.filter_eq_nil_iff]
    intro i hi
    have hiu : ∀ i' ∈ db.order_items, ¬ i'.order_uid = uid := by
      intro i' hi'
      have := List.filter_eq_nil_iff.mp h i' hi'
      simpa using this
    rw [hru]
    simpa using hiu i hi
  · intro h
    obtain ⟨first, rest, hcons⟩ := List.exists_cons_of_ne_nil h
    refine ⟨_, getOrder_eq_of_join db uid first rest hcons, ?_⟩
    rw [foldl_appendItems, hcons]
    simp [fillOrderData]

/-- C6 witness: an absent uid on the empty store yields no-order, and a
stored one-item order yields a non-empty join materialised with its item. -/
theorem getOrder_no_order_iff_empty_join_witness :
    GetOrder "missing" DB.empty = .error .noOrder
    ∧ ∃ o, GetOrder sampleOrder.order_uid
          ((SaveOrder FailSpec.ok sampleOrder DB.empty).2) = .ok o
        ∧ o.items = (joinRows ((SaveOrder FailSpec.ok sampleOrder DB.empty).2)
            sampleOrder.order_uid).map (fun r => r.item.toItem) :=
  ⟨(getOrder_no_order_iff_empty_join DB.empty "missing").2.1 (by decide),
   (getOrder_no_order_iff_empty_join
      ((SaveOrder FailSpec.ok sampleOrder DB.empty).2)
      sampleOrder.order_uid).2.2.2 (by decide)⟩

/-! ## Claim C7: worker-pool concurrency bound -/

/-- `Handle` returns its token on every exit path: the pool state after a
completed `Handle` equals the state before it, and the handler's own
result is returned unchanged. -/
theorem handle_returns_state {Ctx Data : Type}
    (handler : Ctx → Data → Except ProcErr Unit) (ctx : Ctx) (data : Data)
    (s : PoolState) (h : 0 < s.available) :
    (Handle handler ctx data s).2 = s
    ∧ (Handle handler ctx data s).1 = handler ctx data := by
  constructor
  · show releaseToken (acquireToken s) = s
    rcases s with ⟨a, i⟩
    have h' : 0 < a := h
    simp only [releaseToken, acquireToken, PoolState.mk.injEq]
    omega
  · rfl

/-- C7: in every state reachable from the freshly created pool, the
available tokens and in-flight handlers sum to the capacity
`MaxWorkersCount = 10`, so at most 10 handlers run concurrently; and a
returning `Handle` call leaves the pool state unchanged (its token is
returned on success and on handler failure alike). -/
theorem pool_concurrency_bounded :
    ∀ (s : PoolState), PoolReachable s →
      s.available + s.inFlight = MaxWorkersCount
      ∧ s.inFlight ≤ MaxWorkersCount
      ∧ (0 < s.available →
          ∀ (handler : Nat → ConsumerMessage → Except ProcErr Unit)
            (ctx : Nat) (data : ConsumerMessage),
            (Handle handler ctx data s).2 = s) := by
  intro s hs
  have hsum : s.available + s.inFlight = MaxWorkersCount := by
    induction hs with
    | init => rfl
    | step hr ht ih =>
      cases ht with
      | acquire h => simp only [acquireToken]; omega
      | release h => simp only [releaseToken]; omega
  exact ⟨hsum, by omega,
    fun h handler ctx data => (handle_returns_state handler ctx data s h).1⟩

/-- C7 witness: the freshly created pool is reachable, respects the
bound, and a `Handle` call on it restores its state. -/
theorem pool_concurrency_bounded_witness :
    PoolState.afterCreate.inFlight ≤ MaxWorkersCount
    ∧ (Handle (fun _ _ => Except.ok ()) 0 (⟨"", "", 0, 0⟩ : ConsumerMessage)
        PoolState.afterCreate).2 = PoolState.afterCreate := by
  have h := pool_concurrency_bounded PoolState.afterCreate PoolReachable.init
  exact ⟨h.2.1, h.2.2 (by decide) _ 0 _⟩

end OrderService

namespace OrderService

/-! ## Claim C8: asynchronous cache fill -/

/-- C8 counterexample: with a cache miss and a store lookup that fails
with an error other than no-order, the handler still schedules the
asynchronous cache write — with the nil order pointer — so the write is
not scheduled "only on store success". -/
theorem cache_fill_on_store_failure_cex :
    (getHandler (0 : Nat) 1 "b563feb7b2b84b6test" .noOrder
      .failure).cacheWrite = some (0, none) := rfl

/-- C8 (amended): the handler's result never depends on the request
context; every scheduled cache write is bound to the constructor's
background context; the write is scheduled exactly when the uid is
non-empty, the cache misses with no-order and the store lookup does not
answer no-order (including store failures, which pass a nil order); and
on store success the returned order is what is written. -/
theorem cache_fill_background_ctx_schedule :
    ∀ {Ctx : Type} (bg rq rq' : Ctx) (uid : String) (cr sr : LookupRes),
      getHandler bg rq uid cr sr = getHandler bg rq' uid cr sr
      ∧ (∀ c p, (getHandler bg rq uid cr sr).cacheWrite = some (c, p) → c = bg)
      ∧ ((getHandler bg rq uid cr sr).cacheWrite ≠ none ↔
          uid ≠ "" ∧ cr = .noOrder ∧ sr ≠ .noOrder)
      ∧ (∀ o, uid ≠ "" → cr = .noOrder → sr = .found o →
          (getHandler bg rq uid cr sr).cacheWrite = some (bg, some o)) := by
  intro Ctx bg rq rq' uid cr sr
  by_cases huid : uid = "" <;> cases cr <;> cases sr <;>
    simp [getHandler, huid]

/-- C8 witness: a cache miss followed by a store hit schedules the write
of the found order under the background context value. -/
theorem cache_fill_background_ctx_witness :
    (getHandler (5 : Nat) 9 "b563feb7b2b84b6test" .noOrder
      (.found sampleOrder)).cacheWrite = some (5, some sampleOrder) :=
  (cache_fill_background_ctx_schedule 5 9 9 "b563feb7b2b84b6test" .noOrder
    (.found sampleOrder)).2.2.2 sampleOrder (by decide) rfl rfl

/-! ## Claim C9: uniform response envelope -/

/-- C9: the read handler always writes HTTP 200 with the uniform
envelope: an empty extracted uid yields the "order uid is empty" error
envelope; no-order from both cache and store yields "order not found";
and a successful lookup (from cache, or from store after a cache miss)
yields the OK envelope extended with the order. -/
theorem get_handler_uniform_envelope :
    ∀ {Ctx : Type} (bg rq : Ctx) (uid : String) (cr sr : LookupRes),
      (getHandler bg rq uid cr sr).httpStatus = 200
      ∧ (uid = "" →
          (getHandler bg rq uid cr sr).envelope =
            Response.mkError "order uid is empty"
          ∧ (getHandler bg rq uid cr sr).order = none)
      ∧ (uid ≠ "" → cr = .noOrder → sr = .noOrder →
          (getHandler bg rq uid cr sr).envelope =
            Response.mkError "order not found"
          ∧ (getHandler bg rq uid cr sr).order = none)
      ∧ (∀ o, uid ≠ "" → cr = .found o →
          (getHandler bg rq uid cr sr).envelope = Response.OK
          ∧ (getHandler bg rq uid cr sr).order = some o)
      ∧ (∀ o, uid ≠ "" → cr = .noOrder → sr = .found o →
          (getHandler bg rq uid cr sr).envelope = Response.OK
          ∧ (getHandler bg rq uid cr sr).order = some o) := by
  intro Ctx bg rq uid cr sr
  by_cases huid : uid = "" <;> cases cr <;> cases sr <;>
    simp [getHandler, huid]

/-- C9 witness: the three envelope cases at concrete inputs. -/
theorem get_handler_uniform_envelope_witness :
    (getHandler (0 : Nat) 0 "" .noOrder .noOrder).envelope =
      Response.mkError "order uid is empty"
    ∧ (getHandler (0 : Nat) 0 "unknown" .noOrder .noOrder).envelope =
      Response.mkError "order not found"
    ∧ (getHandler (0 : Nat) 0 "b563feb7b2b84b6test" .noOrder
        (.found sampleOrder)).envelope = Response.OK :=
  ⟨((get_handler_uniform_envelope 0 0 "" .noOrder .noOrder).2.1 rfl).1,
   ((get_handler_uniform_envelope 0 0 "unknown" .noOrder .noOrder).2.2.1
      (by decide) rfl rfl).1,
   ((get_handler_uniform_envelope 0 0 "b563feb7b2b84b6test" .noOrder
      (.found sampleOrder)).2.2.2.2 sampleOrder (by decide) rfl rfl).1⟩

/-! ## Claim C10: no semantic validation of decoded payloads -/

/-- C10: a payload decoding to the zero-valued order (as `"{}"` does) is
passed to `SaveOrder` unvalidated: on a store without an empty-string key
the save succeeds, `orders` gains exactly one row whose primary key is the
empty string, no items are inserted, and the message is published to the
commit channel (acknowledged). -/
theorem process_empty_json_persists_empty_uid :
    ∀ (dec : String → Option OrderData) (msg : ConsumerMessage) (db : DB),
      dec msg.value = some zeroOrder →
      (∀ r ∈ db.orders, r.order_uid ≠ "") →
      (processOrder dec FailSpec.ok msg db).1 = .ok ()
      ∧ ((processOrder dec FailSpec.ok msg db).2).orders.countP
          (fun r => r.order_uid = "") = 1
      ∧ ((processOrder dec FailSpec.ok msg db).2).orders =
          db.orders ++ [convertOrder zeroOrder]
      ∧ ((processOrder dec FailSpec.ok msg db).2).order_items =
          db.order_items
      ∧ (handleAndCommit dec FailSpec.ok msg db).1 = some msg := by
  intro dec msg db hdec hfresh
  have hproc : processOrder dec FailSpec.ok msg db =
      (.ok (), saveApplied zeroOrder db) := by
    simp [processOrder, hdec, saveOrder_ok_eq]
  have hany : (db.orders.any
      (fun r => decide (r.order_uid = (convertOrder zeroOrder).order_uid))) =
      false := by
    rw [List.any_eq_false]
    intro r hr
    simpa [convertOrder, zeroOrder] using hfresh r hr
  have hitems : zeroOrder.items = [] := rfl
  have hsa : saveApplied zeroOrder db =
      ⟨db.orders ++ [convertOrder zeroOrder], db.order_items, db.next_id⟩ := by
    unfold saveApplied insertItems
    simp [insertOrderRow, hany, hitems]
  refine ⟨by rw [hproc], ?_, ?_, ?_, ?_⟩
  · rw [hproc]
    show (saveApplied zeroOrder db).orders.countP
      (fun r => decide (r.order_uid = "")) = 1
    rw [hsa]
    have h0 : db.orders.countP (fun r => decide (r.order_uid = "")) = 0 := by
      rw [List.countP_eq_zero]
      intro r hr
      simpa using hfresh r hr
    simp [List.countP_append, h0, convertOrder, zeroOrder]
  · rw [hproc, hsa]
  · rw [hproc, hsa]
  · unfold handleAndCommit
    rw [hproc]

/-- C10 witness: the `"{}"` payload on the empty store is saved as an
empty-uid order row and acknowledged. -/
theorem process_empty_json_witness :
    (processOrder decEmptyObject FailSpec.ok
      (⟨"", "{}", 0, 0⟩ : ConsumerMessage) DB.empty).1 = .ok ()
    ∧ ((processOrder decEmptyObject FailSpec.ok
        (⟨"", "{}", 0, 0⟩ : ConsumerMessage) DB.empty).2).orders.countP
        (fun r => r.order_uid = "") = 1
    ∧ (handleAndCommit decEmptyObject FailSpec.ok
        (⟨"", "{}", 0, 0⟩ : ConsumerMessage) DB.empty).1 =
      some (⟨"", "{}", 0, 0⟩ : ConsumerMessage) := by
  have h := process_empty_json_persists_empty_uid decEmptyObject
    (⟨"", "{}", 0, 0⟩ : ConsumerMessage) DB.empty (by decide) (by decide)
  exact ⟨h.1, h.2.1, h.2.2.2.2⟩

end OrderService
